import Mathlib

/-!
Shallow embedding of the inventory-lending application `src/app.py`
(product catalog, transaction ledger, balance computations, CSV importer),
together with theorems settling the specification claims.

Conventions of the embedding:
* SQLite INTEGER columns are `Int` (Python ints are unbounded; the values
  stored stay well inside 64 bits in every claim considered).
* TEXT columns are `String`; SQLite BINARY collation on ASCII text agrees
  with the lexicographic `String` order used here.
* Tables are `List`s kept in rowid (insertion) order; `ORDER BY` is a
  stable sort over that scan order, modelled with `List.insertionSort`.
* `datetime.date.strftime` is modelled after the glibc behaviour the
  program runs on: `%Y` renders the year as plain decimal digits without
  zero padding, `%m` and `%d` zero-pad to two digits.
* Python `float(...)` followed by `int(...)` on the cleaned price text is
  modelled by a decimal parser (optional sign, digits, optional fractional
  part) that truncates toward zero; exotic float syntax (exponents,
  infinities, underscores) is out of scope of the claims.
* `pd.read_csv` reads a field matching its default `na_values` tokens —
  in particular an empty field — as the float NaN, and the row loop's
  `str(...)` turns that into the text `"nan"`; this read stage is part of
  `process_csv`.
-/

/-! ### Decimal rendering (model of strftime number output) -/

/-- Decimal digits of `n`, most significant first; `fuel` bounds recursion
and is always given large enough (`fuel ≥ number of digits`). -/
def decDigitsAux : Nat → Nat → List Char
  | 0, _ => []
  | fuel + 1, n =>
    if n = 0 then []
    else decDigitsAux fuel (n / 10) ++ [Char.ofNat (48 + n % 10)]

/-- Decimal rendering of a natural number, as glibc `%Y` renders a year:
no zero padding. -/
def natToDec (n : Nat) : String :=
  if n = 0 then "0" else ⟨decDigitsAux (n + 1) n⟩

/-- Two-digit zero-padded rendering, as `%m` and `%d` render month and day. -/
def pad2 (n : Nat) : String :=
  if n < 10 then "0" ++ natToDec n else natToDec n

/-- Calendar date as Python `datetime.date` carries it (year 1..9999). -/
structure Date where
  year : Nat
  month : Nat
  day : Nat
deriving DecidableEq, Repr

/-- `date.strftime("%Y-%m-%d")`. -/
def strftimeYMD (d : Date) : String :=
  natToDec d.year ++ "-" ++ pad2 d.month ++ "-" ++ pad2 d.day

/-- `date.strftime("%Y-%m")`. -/
def strftimeYM (d : Date) : String :=
  natToDec d.year ++ "-" ++ pad2 d.month

/-- The first seven characters of a string (the specification phrase
`firstSevenChars`, used to compare `period` with `date`). -/
def firstSeven (s : String) : String :=
  ⟨s.data.take 7⟩

/-! ### Price text parsing (model of `int(float(price_str))`) -/

/-- Numeric value of a list of decimal digit characters. -/
def digitsVal (cs : List Char) : Nat :=
  cs.foldl (fun a c => a * 10 + (c.toNat - 48)) 0

/-- Model of `int(float(s))` on the cleaned price text: optional sign,
digits, optional decimal point and fractional digits; truncates toward
zero (so the fractional digits only need to be well formed, their value is
dropped). Returns `none` where Python float parsing raises. -/
def parsePrice (s : String) : Option Int :=
  let cs := s.data
  let (neg, cs) :=
    match cs with
    | '-' :: rest => (true, rest)
    | '+' :: rest => (false, rest)
    | _ => (false, cs)
  let ip := cs.takeWhile Char.isDigit
  let rest := cs.dropWhile Char.isDigit
  let ok :=
    match rest with
    | [] => !ip.isEmpty
    | '.' :: fp => fp.all Char.isDigit && (!ip.isEmpty || !fp.isEmpty)
    | _ => false
  if ok then
    let v : Int := Int.ofNat (digitsVal ip)
    some (if neg then -v else v)
  else
    none

/-! ### Text helpers (Python `str.strip`, `str.lower`, `str.replace`) -/

/-- ASCII whitespace as `str.strip` removes it (the inputs considered are
ASCII and Korean text, never exotic unicode spaces). -/
def isSpc (c : Char) : Bool :=
  c = ' ' || c = '\t' || c = '\n' || c = '\r' || c = '\x0b' || c = '\x0c'

/-- Python `s.strip()`: drop leading and trailing whitespace. -/
def stripStr (s : String) : String :=
  ⟨((s.data.dropWhile isSpc).reverse.dropWhile isSpc).reverse⟩

/-- Lowering of one character (`str.lower`); the headers considered are
ASCII and Korean, where only A..Z change. -/
def charLower (c : Char) : Char :=
  if 65 ≤ c.toNat ∧ c.toNat ≤ 90 then Char.ofNat (c.toNat + 32) else c

/-- Python `s.lower()`. -/
def strLower (s : String) : String :=
  ⟨s.data.map charLower⟩

/-- Python `s.replace(pat, '')` on character lists: delete every
occurrence of `pat`, scanning left to right; `fuel` bounds the recursion
and is always given as the length of the scanned list. -/
def removeAllAux (pat : List Char) : Nat → List Char → List Char
  | 0, cs => cs
  | fuel + 1, cs =>
    match cs with
    | [] => []
    | c :: rest =>
      if pat ≠ [] ∧ pat.isPrefixOf cs then removeAllAux pat fuel (cs.drop pat.length)
      else c :: removeAllAux pat fuel rest

/-- Python `s.replace(pat, '')`. -/
def removeAll (s pat : String) : String :=
  ⟨removeAllAux pat.data s.data.length s.data⟩

/-! ### Substring containment (Python `tok in s`) -/

/-- `tok` occurs as a contiguous substring of the character list. -/
def hasInfix (tok : List Char) : List Char → Bool
  | [] => tok.isEmpty
  | c :: rest => tok.isPrefixOf (c :: rest) || hasInfix tok rest

/-- Python `tok in s` on strings. -/
def containsTok (s tok : String) : Bool :=
  hasInfix tok.data s.data

/-! ### Product catalog (`products` table, `upsert_product`) -/

/-- One row of the `products` table (id and created_at omitted: no claim
mentions them). -/
structure Product where
  product_name : String
  sku : String
  supply_price : Int
deriving DecidableEq, Repr

/-- Effect of `INSERT ... ON CONFLICT(sku) DO UPDATE` on the rows held in
rowid order: replace the row with the matching sku in place, else append.
The sku column is UNIQUE, so at most one row can match. -/
def upsertRows : List Product → String → String → Int → List Product
  | [], n, s, p => [⟨n, s, p⟩]
  | q :: rest, n, s, p =>
    if q.sku = s then ⟨n, s, p⟩ :: rest else q :: upsertRows rest n s p

/-- `upsert_product(product_name, sku, supply_price)`: runs the upsert and
returns `True`; the statement cannot violate a constraint (sku is bound to
a non-null parameter), so the exception branch returning `False` is dead. -/
def upsert_product (cat : List Product) (product_name sku : String)
    (supply_price : Int) : List Product × Bool :=
  (upsertRows cat product_name sku supply_price, true)

/-! ### Transaction ledger (`transactions` table) -/

/-- One row of the `transactions` table (created_at omitted). -/
structure Transaction where
  id : Nat
  date : String
  shop : String
  product_name : String
  quantity : Int
  unit_price : Int
  total : Int
  transaction_type : String
  month : String
deriving DecidableEq, Repr

/-- Ledger state: rows in rowid order plus the AUTOINCREMENT counter
(never reused after deletion). -/
structure LedgerState where
  rows : List Transaction
  nextId : Nat
deriving DecidableEq, Repr

/-- `add_transaction(date, shop, product_name, quantity, unit_price,
transaction_type)`: computes `total` and `month`, inserts, returns `True`.
No field is validated here. -/
def add_transaction (st : LedgerState) (d : Date) (shop product_name : String)
    (quantity unit_price : Int) (transaction_type : String) :
    LedgerState × Bool :=
  let total := quantity * unit_price
  let month := strftimeYM d
  (⟨st.rows ++ [⟨st.nextId, strftimeYMD d, shop, product_name, quantity,
      unit_price, total, transaction_type, month⟩], st.nextId + 1⟩, true)

/-- `delete_transaction(transaction_id)`. -/
def delete_transaction (st : LedgerState) (transaction_id : Nat) : LedgerState :=
  ⟨st.rows.filter (fun t => t.id ≠ transaction_id), st.nextId⟩

/-- WHERE clause of `get_transactions`: every provided filter must match. -/
def txMatches (month shop transaction_type : Option String)
    (t : Transaction) : Bool :=
  (match month with | none => true | some m => t.month = m) &&
  (match shop with | none => true | some s => t.shop = s) &&
  (match transaction_type with | none => true | some ty => t.transaction_type = ty)

/-- Lexicographic order on character lists by code point, which is the
SQLite BINARY collation used by `ORDER BY` on the TEXT date column (on the
ASCII dates stored it coincides with byte order). -/
def leChars : List Char → List Char → Bool
  | [], _ => true
  | _ :: _, [] => false
  | a :: as, b :: bs =>
    if a.toNat < b.toNat then true
    else if b.toNat < a.toNat then false
    else leChars as bs

theorem leChars_total : ∀ a b, leChars a b = true ∨ leChars b a = true := by
  intro a
  induction a with
  | nil => intro b; left; rfl
  | cons x xs ih =>
    intro b
    cases b with
    | nil => right; rfl
    | cons y ys =>
      rcases Nat.lt_trichotomy x.toNat y.toNat with h | h | h
      · left; simp [leChars, h]
      · rcases ih ys with h' | h'
        · left; simp [leChars, h, h']
        · right; simp [leChars, h.symm, h']
      · right; simp [leChars, h]

theorem leChars_trans :
    ∀ a b c, leChars a b = true → leChars b c = true → leChars a c = true := by
  intro a
  induction a with
  | nil => intro b c _ _; rfl
  | cons x xs ih =>
    intro b c hab hbc
    cases b with
    | nil => simp [leChars] at hab
    | cons y ys =>
      cases c with
      | nil => simp [leChars] at hbc
      | cons z zs =>
        simp only [leChars] at hab hbc ⊢
        rcases Nat.lt_trichotomy x.toNat y.toNat with hxy | hxy | hxy
        · rcases Nat.lt_trichotomy y.toNat z.toNat with hyz | hyz | hyz
          · have h : x.toNat < z.toNat := by omega
            simp [h]
          · have h : x.toNat < z.toNat := by omega
            simp [h]
          · have h1 : ¬ y.toNat < z.toNat := by omega
            simp [h1, hyz] at hbc
        · rcases Nat.lt_trichotomy y.toNat z.toNat with hyz | hyz | hyz
          · have h : x.toNat < z.toNat := by omega
            simp [h]
          · have h1 : ¬ x.toNat < y.toNat := by omega
            have h2 : ¬ y.toNat < x.toNat := by omega
            have h3 : ¬ y.toNat < z.toNat := by omega
            have h4 : ¬ z.toNat < y.toNat := by omega
            have h5 : ¬ x.toNat < z.toNat := by omega
            have h6 : ¬ z.toNat < x.toNat := by omega
            simp [h1, h2] at hab
            simp [h3, h4] at hbc
            simp [h5, h6, ih ys zs hab hbc]
          · have h1 : ¬ y.toNat < z.toNat := by omega
            simp [h1, hyz] at hbc
        · have h1 : ¬ x.toNat < y.toNat := by omega
          simp [h1, hxy] at hab

/-- `ORDER BY date DESC` comparison: `t` may precede `u`. -/
def dateGe (t u : Transaction) : Prop :=
  leChars u.date.data t.date.data = true

instance : DecidableRel dateGe := fun t u =>
  inferInstanceAs (Decidable (leChars u.date.data t.date.data = true))

instance : IsTotal Transaction dateGe :=
  ⟨fun t u => by
    unfold dateGe
    exact Or.symm (leChars_total t.date.data u.date.data)⟩

instance : IsTrans Transaction dateGe :=
  ⟨fun _ _ _ h h' => leChars_trans _ _ _ h' h⟩

/-- `get_transactions(month, shop, transaction_type)`: filter, then
`ORDER BY date DESC` as a stable sort over rowid order. -/
def get_transactions (st : LedgerState)
    (month shop transaction_type : Option String) : List Transaction :=
  List.insertionSort dateGe (st.rows.filter (txMatches month shop transaction_type))

/-! ### Balance computations (`show_dashboard`) -/

/-- Signed contribution of one row to a balance: `+total` on `lend`,
`-total` otherwise (only `borrow` occurs). -/
def signedAmount (t : Transaction) : Int :=
  if t.transaction_type = "lend" then t.total else -t.total

/-- The `total_balance` accumulation loop of `show_dashboard`. -/
def total_balance (rows : List Transaction) : Int :=
  rows.foldl (fun a t => a + signedAmount t) 0

/-- One step of the `shop_balances` dict: add `amt` to the entry of
`shop`, creating it at the end when absent (Python dict insertion order). -/
def addToShop : List (String × Int) → String → Int → List (String × Int)
  | [], shop, amt => [(shop, amt)]
  | (s, b) :: rest, shop, amt =>
    if s = shop then (s, b + amt) :: rest else (s, b) :: addToShop rest shop amt

/-- The `shop_balances` dict built by the dashboard loop, as an
insertion-ordered association list. -/
def shop_balances (rows : List Transaction) : List (String × Int) :=
  rows.foldl (fun acc t => addToShop acc t.shop (signedAmount t)) []

/-- Sum of the values of an association list (`sum(....values())`). -/
def sumVals (l : List (String × Int)) : Int :=
  (l.map Prod.snd).sum

/-- `sorted(shop_balances.items(), key=lambda x: abs(x[1]), reverse=True)`
comparison: `x` may precede `y`. Python sorted is stable and `reverse=True`
keeps equal keys in original order, which is what a stable sort under this
relation does. -/
def absGe (x y : String × Int) : Prop :=
  |y.2| ≤ |x.2|

instance : DecidableRel absGe := fun x y => by
  unfold absGe; infer_instance

instance : IsTotal (String × Int) absGe :=
  ⟨fun x y => le_total |y.2| |x.2|⟩

instance : IsTrans (String × Int) absGe :=
  ⟨fun _ _ _ h h' => le_trans h' h⟩

/-- The ranked per-shop listing of `show_dashboard`. -/
def ranked_shop_balances (rows : List Transaction) : List (String × Int) :=
  List.insertionSort absGe (shop_balances rows)

/-! ### CSV importer (`process_csv`) -/

/-- Name-column test of the header loop:
`'상품명' in col or 'product' in col_lower or 'name' in col_lower`. -/
def matchesName (col : String) : Bool :=
  containsTok col "상품명" || containsTok (strLower col) "product" ||
    containsTok (strLower col) "name"

/-- Sku-column test: `'sku' in col_lower or '코드' in col`. -/
def matchesSku (col : String) : Bool :=
  containsTok (strLower col) "sku" || containsTok col "코드"

/-- Price-column test:
`'공급가' in col or '가격' in col or 'price' in col_lower or 'supply' in col_lower`. -/
def matchesPrice (col : String) : Bool :=
  containsTok col "공급가" || containsTok col "가격" ||
    containsTok (strLower col) "price" || containsTok (strLower col) "supply"

/-- The header loop of `process_csv`: an if/elif chain that overwrites the
current assignment of a field on every later match. -/
def inferLoop (st : Option String × Option String × Option String) :
    List String → Option String × Option String × Option String
  | [] => st
  | col :: rest =>
    if matchesName col then inferLoop (some col, st.2.1, st.2.2) rest
    else if matchesSku col then inferLoop (st.1, some col, st.2.2) rest
    else if matchesPrice col then inferLoop (st.1, st.2.1, some col) rest
    else inferLoop st rest

/-- Column inference over the header row: `(product_col, sku_col, price_col)`. -/
def inferCols (headers : List String) :
    Option String × Option String × Option String :=
  inferLoop (none, none, none) headers

/-- The default `na_values` tokens of `pd.read_csv`: a CSV field equal to
one of these is read as the float NaN instead of text. -/
def isNaToken (s : String) : Bool :=
  s = "" || s = "#N/A" || s = "#N/A N/A" || s = "#NA" || s = "-1.#IND" ||
  s = "-1.#QNAN" || s = "-NaN" || s = "-nan" || s = "1.#IND" || s = "1.#QNAN" ||
  s = "<NA>" || s = "N/A" || s = "NA" || s = "NULL" || s = "NaN" ||
  s = "None" || s = "n/a" || s = "nan" || s = "null"

/-- What `str(row[col])` yields for a raw CSV field after `pd.read_csv`:
an NA field (in particular an empty one) is read as NaN and stringifies
to `"nan"`; every other field keeps its text (numeric fields render back
to the same digits). -/
def strCell (raw : String) : String :=
  if isNaToken raw then "nan" else raw

/-- `row[col]` on a CSV row stored as the list of already-stringified
cells (`strCell` applied by the read stage) parallel to the header row
(pandas column access by name). -/
def getCell (headers row : List String) (col : String) : String :=
  ((headers.zip row).find? (fun p => p.1 = col)).elim "" (fun p => p.2)

/-- `str(row[price_col]).replace(',', '').replace('원', '').strip()`. -/
def cleanPrice (s : String) : String :=
  stripStr (removeAll (removeAll s ",") "원")

/-- The body of the row loop of `process_csv`: state is
`(catalog, success_count, error_count)`. A price that fails to parse
increments the error counter; a row with empty name, empty sku or
non-positive price falls through the `if` with no counter change; an
accepted row is upserted and counts as success when the upsert reports
`True`. -/
def processRow (headers : List String) (pcol scol prcol : String)
    (st : List Product × Nat × Nat) (row : List String) :
    List Product × Nat × Nat :=
  let product_name := stripStr (getCell headers row pcol)
  let sku := stripStr (getCell headers row scol)
  let price_str := cleanPrice (getCell headers row prcol)
  match parsePrice price_str with
  | none => (st.1, st.2.1, st.2.2 + 1)
  | some price =>
    if product_name ≠ "" ∧ sku ≠ "" ∧ price > 0 then
      let r := upsert_product st.1 product_name sku price
      if r.2 then (r.1, st.2.1 + 1, st.2.2) else (r.1, st.2.1, st.2.2 + 1)
    else st

/-- `process_csv` on tabular input split into a header row and raw data
rows: the `pd.read_csv` stage turns each NA field into NaN, which the row
loop sees as the text `"nan"` (`strCell`); then resolve the three columns
or fail as a whole, and fold the row loop. Returns
`(success_count, error_count)` and the resulting catalog. -/
def process_csv (cat : List Product) (headers : List String)
    (rows : List (List String)) : Except String (Nat × Nat × List Product) :=
  match inferCols headers with
  | (some pcol, some scol, some prcol) =>
    let r := (rows.map (List.map strCell)).foldl
      (processRow headers pcol scol prcol) (cat, 0, 0)
    .ok (r.2.1, r.2.2, r.1)
  | _ => .error "필수 열(상품명, SKU, 공급가)을 찾을 수 없습니다."

/-- The `(success_count, error_count)` summary of an import outcome. -/
def csvCounts : Except String (Nat × Nat × List Product) → Option (Nat × Nat)
  | .ok r => some (r.1, r.2.1)
  | .error _ => none

deriving instance DecidableEq for Except

/-- The last element of a list when there is one, else the default `x`:
the value a variable assigned on every match holds after a left-to-right
scan. Used to characterise the overwriting column inference. -/
def lastOr (x : Option String) : List String → Option String
  | [] => x
  | c :: l => lastOr (some c) l

/-! ### Helper lemmas -/

theorem foldl_add_shift {α : Type} (f : α → Int) :
    ∀ (l : List α) (a : Int), l.foldl (fun x y => x + f y) a = a + (l.map f).sum := by
  intro l
  induction l with
  | nil => intro a; simp
  | cons y ys ih =>
    intro a
    simp only [List.foldl_cons, List.map_cons, List.sum_cons, ih]
    ring

theorem total_balance_eq (rows : List Transaction) :
    total_balance rows = (rows.map signedAmount).sum := by
  simpa using foldl_add_shift signedAmount rows 0

theorem sumVals_addToShop :
    ∀ (acc : List (String × Int)) (s : String) (a : Int),
      sumVals (addToShop acc s a) = sumVals acc + a := by
  intro acc
  induction acc with
  | nil => intro s a; simp [addToShop, sumVals]
  | cons q rest ih =>
    intro s a
    obtain ⟨s', b⟩ := q
    by_cases h : s' = s
    · simp [addToShop, h, sumVals]
      ring
    · simp [addToShop, h, sumVals] at ih ⊢
      rw [ih]
      ring

theorem sumVals_shop_fold :
    ∀ (rows : List Transaction) (acc : List (String × Int)),
      sumVals (rows.foldl (fun a t => addToShop a t.shop (signedAmount t)) acc) =
        sumVals acc + (rows.map signedAmount).sum := by
  intro rows
  induction rows with
  | nil => intro acc; simp
  | cons t ts ih =>
    intro acc
    simp only [List.foldl_cons, List.map_cons, List.sum_cons, ih, sumVals_addToShop]
    ring

theorem skus_upsertRows :
    ∀ (cat : List Product) (n s : String) (p : Int),
      (upsertRows cat n s p).map Product.sku =
        if s ∈ cat.map Product.sku then cat.map Product.sku
        else cat.map Product.sku ++ [s] := by
  intro cat
  induction cat with
  | nil => intro n s p; simp [upsertRows]
  | cons q rest ih =>
    intro n s p
    by_cases h : q.sku = s
    · simp [upsertRows, h]
    · have h' : ¬ s = q.sku := fun hh => h hh.symm
      by_cases hmem : s ∈ rest.map Product.sku
      · simp [upsertRows, h, ih, hmem, h']
      · simp [upsertRows, h, ih, hmem, h']

theorem nodup_skus_upsertRows (cat : List Product) (n s : String) (p : Int)
    (h : (cat.map Product.sku).Nodup) :
    ((upsertRows cat n s p).map Product.sku).Nodup := by
  rw [skus_upsertRows]
  by_cases hmem : s ∈ cat.map Product.sku
  · simpa [hmem] using h
  · simp [hmem, List.nodup_append, h]

theorem filter_sku_eq_nil :
    ∀ (cat : List Product) (s : String), s ∉ cat.map Product.sku →
      cat.filter (fun q => q.sku = s) = [] := by
  intro cat
  induction cat with
  | nil => intro s _; rfl
  | cons q rest ih =>
    intro s hs
    simp only [List.map_cons, List.mem_cons, not_or] at hs
    have h1 : ¬ q.sku = s := fun hh => hs.1 hh.symm
    simp [List.filter_cons, h1, ih s hs.2]

theorem filter_sku_upsertRows :
    ∀ (cat : List Product) (n s : String) (p : Int),
      (cat.map Product.sku).Nodup →
      (upsertRows cat n s p).filter (fun q => q.sku = s) = [⟨n, s, p⟩] := by
  intro cat
  induction cat with
  | nil => intro n s p _; simp [upsertRows]
  | cons q rest ih =>
    intro n s p hnd
    simp only [List.map_cons, List.nodup_cons] at hnd
    by_cases h : q.sku = s
    · have : s ∉ rest.map Product.sku := h ▸ hnd.1
      simp [upsertRows, h, List.filter_cons, filter_sku_eq_nil rest s this]
    · simp [upsertRows, h, List.filter_cons, ih n s p hnd.2]

theorem decDigitsAux_zero : ∀ f, decDigitsAux f 0 = [] := by
  intro f
  cases f with
  | zero => rfl
  | succ f => simp [decDigitsAux]

theorem decDigitsAux_succ (f n : Nat) (hn : n ≠ 0) :
    decDigitsAux (f + 1) n =
      decDigitsAux f (n / 10) ++ [Char.ofNat (48 + n % 10)] := by
  simp [decDigitsAux, hn]

theorem decDigitsAux_len1 (f n : Nat) (h1 : 1 ≤ n) (h2 : n ≤ 9) :
    (decDigitsAux (f + 1) n).length = 1 := by
  have hn : n ≠ 0 := by omega
  have hd : n / 10 = 0 := Nat.div_eq_of_lt (by omega)
  rw [decDigitsAux_succ f n hn, hd, decDigitsAux_zero]
  rfl

theorem decDigitsAux_len2 (f n : Nat) (h1 : 10 ≤ n) (h2 : n ≤ 99) :
    (decDigitsAux (f + 2) n).length = 2 := by
  have hn : n ≠ 0 := by omega
  show (decDigitsAux ((f + 1) + 1) n).length = 2
  rw [decDigitsAux_succ (f + 1) n hn]
  simp [decDigitsAux_len1 f (n / 10) (by omega) (by omega)]

theorem decDigitsAux_len3 (f n : Nat) (h1 : 100 ≤ n) (h2 : n ≤ 999) :
    (decDigitsAux (f + 3) n).length = 3 := by
  have hn : n ≠ 0 := by omega
  show (decDigitsAux ((f + 2) + 1) n).length = 3
  rw [decDigitsAux_succ (f + 2) n hn]
  simp [decDigitsAux_len2 f (n / 10) (by omega) (by omega)]

theorem decDigitsAux_len4 (f n : Nat) (h1 : 1000 ≤ n) (h2 : n ≤ 9999) :
    (decDigitsAux (f + 4) n).length = 4 := by
  have hn : n ≠ 0 := by omega
  show (decDigitsAux ((f + 3) + 1) n).length = 4
  rw [decDigitsAux_succ (f + 3) n hn]
  simp [decDigitsAux_len3 f (n / 10) (by omega) (by omega)]

theorem natToDec_len4 (n : Nat) (h1 : 1000 ≤ n) (h2 : n ≤ 9999) :
    (natToDec n).data.length = 4 := by
  have hn : ¬ n = 0 := by omega
  have hf : n + 1 = (n - 3) + 4 := by omega
  simp only [natToDec, if_neg hn]
  show (decDigitsAux (n + 1) n).length = 4
  rw [hf]
  exact decDigitsAux_len4 (n - 3) n h1 h2

theorem natToDec_len1 (n : Nat) (h : n ≤ 9) : (natToDec n).data.length = 1 := by
  by_cases hn : n = 0
  · subst hn; rfl
  · simp only [natToDec, if_neg hn]
    show (decDigitsAux (n + 1) n).length = 1
    exact decDigitsAux_len1 n n (by omega) h

theorem pad2_len (n : Nat) (h : n ≤ 99) : (pad2 n).data.length = 2 := by
  by_cases hlt : n < 10
  · simp only [pad2, if_pos hlt]
    rw [String.data_append]
    have h0 : ("0" : String).data.length = 1 := rfl
    simp [h0, natToDec_len1 n (by omega)]
  · simp only [pad2, if_neg hlt]
    have hn : ¬ n = 0 := by omega
    have hf : n + 1 = (n - 1) + 2 := by omega
    simp only [natToDec, if_neg hn]
    show (decDigitsAux (n + 1) n).length = 2
    rw [hf]
    exact decDigitsAux_len2 (n - 1) n (by omega) h

theorem strftimeYM_len (d : Date) (h1 : 1000 ≤ d.year) (h2 : d.year ≤ 9999)
    (hm : d.month ≤ 12) : (strftimeYM d).data.length = 7 := by
  unfold strftimeYM
  rw [String.data_append, String.data_append]
  have hdash : ("-" : String).data.length = 1 := rfl
  simp [natToDec_len4 d.year h1 h2, pad2_len d.month (by omega), hdash]

theorem firstSeven_strftimeYMD (d : Date) (h1 : 1000 ≤ d.year)
    (h2 : d.year ≤ 9999) (hm : d.month ≤ 12) :
    firstSeven (strftimeYMD d) = strftimeYM d := by
  have hlen : (strftimeYM d).data.length = 7 := strftimeYM_len d h1 h2 hm
  have hdata : (strftimeYMD d).data =
      (strftimeYM d).data ++ ("-" ++ pad2 d.day).data := by
    unfold strftimeYMD strftimeYM
    simp [String.data_append, List.append_assoc]
  unfold firstSeven
  rw [hdata, List.take_left' hlen]

theorem lastOr_filter_inferLoop (hs : List String) :
    ∀ st : Option String × Option String × Option String,
      inferLoop st hs =
        (lastOr st.1 (hs.filter matchesName),
         lastOr st.2.1 (hs.filter fun c => !matchesName c && matchesSku c),
         lastOr st.2.2 (hs.filter fun c =>
           !matchesName c && !matchesSku c && matchesPrice c)) := by
  induction hs with
  | nil => intro st; simp [inferLoop, lastOr]
  | cons col rest ih =>
    intro st
    by_cases h1 : matchesName col
    · simp [inferLoop, h1, List.filter_cons, ih, lastOr]
    · by_cases h2 : matchesSku col
      · simp [inferLoop, h1, h2, List.filter_cons, ih, lastOr]
      · by_cases h3 : matchesPrice col
        · simp [inferLoop, h1, h2, h3, List.filter_cons, ih, lastOr]
        · simp [inferLoop, h1, h2, h3, List.filter_cons, ih]

/-! ### Claim theorems -/

/-- C1, counterexample: on the given headers and rows, `process_csv`
returns `successCount = 2, errorCount = 0`, not `(1, 2)`: the empty name
field is read as NaN and stringified to the non-empty text `"nan"`, so
that row is upserted as a product named `"nan"`, and the
non-positive-price row falls through the acceptance test without touching
the error counter. -/
theorem C1_counterexample :
    process_csv [] ["Product Name", "SKU", "Supply Price"]
      [["Mug", "M1", "1,000원"], ["", "M2", "500"], ["Cup", "C1", "-5"]] =
      .ok (2, 0, [⟨"Mug", "M1", 1000⟩, ⟨"nan", "M2", 500⟩]) ∧
    csvCounts (process_csv [] ["Product Name", "SKU", "Supply Price"]
      [["Mug", "M1", "1,000원"], ["", "M2", "500"], ["Cup", "C1", "-5"]]) ≠
      some (1, 2) := by
  exact ⟨by decide, by decide⟩

/-- C1, amended: the given import yields `successCount = 2,
errorCount = 0`: the Mug row is upserted normally, the empty-name row is
upserted under the pandas NaN stringification `"nan"`, the `-5` row is
skipped with no counter change, and in general only a row whose price
text fails to parse increments the error counter. -/
theorem C1_corrected :
    csvCounts (process_csv [] ["Product Name", "SKU", "Supply Price"]
      [["Mug", "M1", "1,000원"], ["", "M2", "500"], ["Cup", "C1", "-5"]]) =
      some (2, 0) ∧
    strCell "" = "nan" ∧
    (∀ (headers : List String) (pcol scol prcol : String)
        (st : List Product × Nat × Nat) (row : List String),
      parsePrice (cleanPrice (getCell headers row prcol)) = none →
      processRow headers pcol scol prcol st row = (st.1, st.2.1, st.2.2 + 1)) := by
  refine ⟨by decide, by decide, ?_⟩
  intro headers pcol scol prcol st row h
  simp only [processRow, h]

/-- C1, witness for the amended theorem at a concrete unparseable price. -/
theorem C1_witness :
    parsePrice (cleanPrice (getCell ["Product Name", "SKU", "Supply Price"]
      ["Mug", "M1", "abc"] "Supply Price")) = none ∧
    processRow ["Product Name", "SKU", "Supply Price"] "Product Name" "SKU"
      "Supply Price" ([], 0, 0) ["Mug", "M1", "abc"] = ([], 0, 0 + 1) :=
  ⟨by decide,
   C1_corrected.2.2 ["Product Name", "SKU", "Supply Price"] "Product Name" "SKU"
     "Supply Price" ([], 0, 0) ["Mug", "M1", "abc"] (by decide)⟩

/-- C2, counterexample: both headers `"Name"` and `"Product"` match the
name tokens; the first match is `"Name"`, but the inference resolves the
name column to the later header `"Product"`: the scan overwrites, so a
field's assignment does change on later matches. -/
theorem C2_counterexample :
    matchesName "Name" = true ∧
    (inferCols ["Name", "Product"]).1 = some "Product" ∧
    some ("Product" : String) ≠ some "Name" := by
  exact ⟨by decide, by decide, by decide⟩

/-- C2, amended: each target field resolves to the LAST header, in
left-to-right scan order, that matches the field's tokens and is not
claimed by an earlier branch of the if/elif chain (name is tested before
sku, sku before price); later matches overwrite earlier assignments. -/
theorem C2_corrected (headers : List String) :
    inferCols headers =
      (lastOr none (headers.filter matchesName),
       lastOr none (headers.filter fun c => !matchesName c && matchesSku c),
       lastOr none (headers.filter fun c =>
         !matchesName c && !matchesSku c && matchesPrice c)) :=
  lastOr_filter_inferLoop headers (none, none, none)

/-- C3, counterexample: `add_transaction` with `quantity = 0` (violating
`quantity > 0`) reports success and persists a transaction; no validation
failure occurs and the ledger is not left unchanged. -/
theorem C3_counterexample :
    (add_transaction ⟨[], 1⟩ ⟨2026, 1, 5⟩ "원더조이" "Mug" 0 100 "lend").2 = true ∧
    (add_transaction ⟨[], 1⟩ ⟨2026, 1, 5⟩ "원더조이" "Mug" 0 100 "lend").1.rows.map
      (fun t => (t.quantity, t.total)) = [(0, 0)] ∧
    (add_transaction ⟨[], 1⟩ ⟨2026, 1, 5⟩ "원더조이" "Mug" 0 100 "lend").1.rows ≠ [] := by
  exact ⟨by decide, by decide, by decide⟩

/-- C3, amended: `add_transaction` performs no validation at all: for
every input (including non-positive quantity, negative price, empty
strings, or a type outside lend/borrow) it reports success and appends
exactly one transaction with `total = quantity * unit_price`, the derived
month, and the fresh AUTOINCREMENT id unused by any existing row. -/
theorem C3_corrected (st : LedgerState) (d : Date) (shop pn : String)
    (q up : Int) (ty : String) (hid : ∀ t ∈ st.rows, t.id < st.nextId) :
    (add_transaction st d shop pn q up ty).2 = true ∧
    (add_transaction st d shop pn q up ty).1.rows =
      st.rows ++ [⟨st.nextId, strftimeYMD d, shop, pn, q, up, q * up, ty,
        strftimeYM d⟩] ∧
    (∀ t ∈ st.rows, t.id ≠ st.nextId) ∧
    (∀ t ∈ (add_transaction st d shop pn q up ty).1.rows,
        t.id < (add_transaction st d shop pn q up ty).1.nextId) := by
  refine ⟨rfl, rfl, fun t ht => Nat.ne_of_lt (hid t ht), ?_⟩
  intro t ht
  simp only [add_transaction, List.mem_append, List.mem_singleton] at ht ⊢
  rcases ht with ht | ht
  · exact Nat.lt_succ_of_lt (hid t ht)
  · subst ht; exact Nat.lt_succ_self _

/-- C3, witness: the amended theorem applied to an empty ledger and a
quantity of zero. -/
theorem C3_witness :
    (∀ t ∈ (⟨[], 1⟩ : LedgerState).rows, t.id < (⟨[], 1⟩ : LedgerState).nextId) ∧
    (add_transaction ⟨[], 1⟩ ⟨2026, 1, 5⟩ "A" "p" 0 100 "lend").2 = true ∧
    (add_transaction ⟨[], 1⟩ ⟨2026, 1, 5⟩ "A" "p" 0 100 "lend").1.rows =
      [] ++ [⟨1, strftimeYMD ⟨2026, 1, 5⟩, "A", "p", 0, 100, 0 * 100, "lend",
        strftimeYM ⟨2026, 1, 5⟩⟩] :=
  ⟨by simp,
   (C3_corrected ⟨[], 1⟩ ⟨2026, 1, 5⟩ "A" "p" 0 100 "lend" (by simp)).1,
   (C3_corrected ⟨[], 1⟩ ⟨2026, 1, 5⟩ "A" "p" 0 100 "lend" (by simp)).2.1⟩

/-- C4, counterexample: `upsert_product` with an empty sku reports
success and inserts a product row; no validation failure occurs and the
catalog does not stay unchanged. -/
theorem C4_counterexample :
    upsert_product [] "X" "" 5 = ([⟨"X", "", 5⟩], true) ∧
    ([⟨"X", "", 5⟩] : List Product) ≠ [] := by
  exact ⟨by decide, by decide⟩

/-- C4, amended: `upsert_product` performs no validation: for every
input, including an empty sku or a negative supply price, it reports
success, and the catalog's sku column afterwards is the old column when
the sku already existed (in-place update) and the old column extended by
the new sku otherwise (insert). -/
theorem C4_corrected (cat : List Product) (n s : String) (p : Int) :
    (upsert_product cat n s p).2 = true ∧
    ((upsert_product cat n s p).1).map Product.sku =
      (if s ∈ cat.map Product.sku then cat.map Product.sku
       else cat.map Product.sku ++ [s]) :=
  ⟨rfl, skus_upsertRows cat n s p⟩

/-- C5, counterexample: two transactions inserted on the same date come
back from `get_transactions` in insertion order ascending (id 1 first),
not most-recently-inserted first. -/
theorem C5_counterexample :
    (get_transactions
      (add_transaction
        (add_transaction ⟨[], 1⟩ ⟨2026, 1, 5⟩ "원더조이" "Mug" 1 100 "lend").1
        ⟨2026, 1, 5⟩ "뚜샵" "Cup" 1 200 "lend").1
      none none none).map (fun t => t.id) = [1, 2] ∧
    (add_transaction
        (add_transaction ⟨[], 1⟩ ⟨2026, 1, 5⟩ "원더조이" "Mug" 1 100 "lend").1
        ⟨2026, 1, 5⟩ "뚜샵" "Cup" 1 200 "lend").1.rows.map (fun t => t.date) =
      ["2026-01-05", "2026-01-05"] := by
  exact ⟨by decide, by decide⟩

/-- C5, amended: `get_transactions` returns exactly the rows matching all
provided filters, ordered by date descending; rows with equal date keep
the table scan order, which is insertion order ascending (the query has
no tie-break clause), as the concrete two-row state shows. -/
theorem C5_corrected :
    (∀ (st : LedgerState) (m s ty : Option String),
        (get_transactions st m s ty).Sorted dateGe ∧
        (get_transactions st m s ty).Perm (st.rows.filter (txMatches m s ty))) ∧
    (get_transactions
      (add_transaction
        (add_transaction ⟨[], 1⟩ ⟨2026, 1, 5⟩ "원더조이" "Mug" 1 100 "lend").1
        ⟨2026, 1, 5⟩ "뚜샵" "Cup" 1 200 "lend").1
      none none none).map (fun t => t.shop) = ["원더조이", "뚜샵"] := by
  refine ⟨fun st m s ty => ⟨?_, ?_⟩, by decide⟩
  · exact List.sorted_insertionSort dateGe _
  · exact List.perm_insertionSort dateGe _

/-- C6, counterexample: shops "B" and "A" both have net balance 100
(equal absolute value), yet the ranking lists "B" before "A"; ascending
shop-name order would list "A" first ("A" precedes "B"). -/
theorem C6_counterexample :
    ranked_shop_balances
      [⟨1, "2026-01-05", "B", "p", 1, 100, 100, "lend", "2026-01"⟩,
       ⟨2, "2026-01-05", "A", "p", 1, 100, 100, "lend", "2026-01"⟩] =
      [("B", 100), ("A", 100)] ∧
    leChars "A".data "B".data = true ∧ ("A" : String) ≠ "B" := by
  exact ⟨by decide, by decide, by decide⟩

/-- C6, amended: the ranked listing is the per-shop balances sorted
descending by absolute balance, and shops with equal absolute balance
keep the order in which they first appear in the transaction sequence
(Python's stable sort), not ascending name order. -/
theorem C6_corrected :
    (∀ rows : List Transaction,
        (ranked_shop_balances rows).Sorted absGe ∧
        (ranked_shop_balances rows).Perm (shop_balances rows)) ∧
    shop_balances
      [⟨1, "2026-01-05", "B", "p", 1, 100, 100, "lend", "2026-01"⟩,
       ⟨2, "2026-01-05", "A", "p", 1, 100, 100, "lend", "2026-01"⟩] =
      [("B", 100), ("A", 100)] ∧
    ranked_shop_balances
      [⟨1, "2026-01-05", "B", "p", 1, 100, 100, "lend", "2026-01"⟩,
       ⟨2, "2026-01-05", "A", "p", 1, 100, 100, "lend", "2026-01"⟩] =
      [("B", 100), ("A", 100)] := by
  refine ⟨fun rows => ⟨?_, ?_⟩, by decide, by decide⟩
  · exact List.sorted_insertionSort absGe _
  · exact List.perm_insertionSort absGe _

/-- C7: starting from any catalog whose skus are distinct, upserting
(`"Widget"`, `"SKU1"`, 100) and then (`"WidgetV2"`, `"SKU1"`, 150) leaves
exactly one product with sku `"SKU1"`, holding the second name and price;
sku distinctness is preserved by these upserts and by any single upsert. -/
theorem C7_upsert_unique (cat : List Product)
    (h : (cat.map Product.sku).Nodup) :
    ((upsert_product (upsert_product cat "Widget" "SKU1" 100).1
        "WidgetV2" "SKU1" 150).1.filter (fun q => q.sku = "SKU1") =
      [⟨"WidgetV2", "SKU1", 150⟩]) ∧
    ((upsert_product (upsert_product cat "Widget" "SKU1" 100).1
        "WidgetV2" "SKU1" 150).1.map Product.sku).Nodup ∧
    (∀ (n s : String) (p : Int),
      ((upsert_product cat n s p).1.map Product.sku).Nodup) := by
  have h1 : ((upsert_product cat "Widget" "SKU1" 100).1.map Product.sku).Nodup :=
    nodup_skus_upsertRows cat "Widget" "SKU1" 100 h
  exact ⟨filter_sku_upsertRows _ "WidgetV2" "SKU1" 150 h1,
    nodup_skus_upsertRows _ "WidgetV2" "SKU1" 150 h1,
    fun n s p => nodup_skus_upsertRows cat n s p h⟩

/-- C7, witness: the double upsert on the empty catalog. -/
theorem C7_witness :
    (([] : List Product).map Product.sku).Nodup ∧
    ((upsert_product (upsert_product ([] : List Product) "Widget" "SKU1" 100).1
        "WidgetV2" "SKU1" 150).1.filter (fun q => q.sku = "SKU1") =
      [⟨"WidgetV2", "SKU1", 150⟩]) :=
  ⟨by decide, (C7_upsert_unique [] (by decide)).1⟩

/-- C8: for every transaction sequence, the sum of the per-shop balances
built by the dashboard grouping loop equals the total balance of the
whole sequence. -/
theorem C8_balance_decomposition (rows : List Transaction) :
    sumVals (shop_balances rows) = total_balance rows := by
  rw [total_balance_eq]
  unfold shop_balances
  simpa [sumVals] using sumVals_shop_fold rows []

/-- C9, counterexample: for a date in year 5, glibc `%Y` emits no zero
padding, so the stored month `"5-03"` is not the first seven characters
of the stored date `"5-03-14"`. -/
theorem C9_counterexample :
    (add_transaction ⟨[], 1⟩ ⟨5, 3, 14⟩ "A" "p" 1 100 "lend").1.rows.map
      (fun t => (t.month, firstSeven t.date)) = [("5-03", "5-03-14")] ∧
    ("5-03" : String) ≠ "5-03-14" := by
  exact ⟨by decide, by decide⟩

/-- C9, amended: every transaction inserted for a date with a four-digit
year (1000..9999, which covers every date the date picker produces)
satisfies `total = quantity * unit_price` and `month = firstSeven date`;
the insert appends and never rewrites existing rows. -/
theorem C9_corrected (st : LedgerState) (d : Date) (shop pn : String)
    (q up : Int) (ty : String)
    (hy1 : 1000 ≤ d.year) (hy2 : d.year ≤ 9999) (hm : d.month ≤ 12) :
    ∃ tx : Transaction,
      (add_transaction st d shop pn q up ty).1.rows = st.rows ++ [tx] ∧
      tx.quantity = q ∧ tx.unit_price = up ∧
      tx.total = tx.quantity * tx.unit_price ∧
      tx.month = firstSeven tx.date := by
  refine ⟨_, rfl, rfl, rfl, rfl, ?_⟩
  show strftimeYM d = firstSeven (strftimeYMD d)
  exact (firstSeven_strftimeYMD d hy1 hy2 hm).symm

/-- C9, witness: the amended theorem at 2026-10-12, quantity 3, price 1000. -/
theorem C9_witness :
    ((1000 : Nat) ≤ 2026 ∧ (2026 : Nat) ≤ 9999 ∧ (10 : Nat) ≤ 12) ∧
    (∃ tx : Transaction,
      (add_transaction ⟨[], 1⟩ ⟨2026, 10, 12⟩ "A" "p" 3 1000 "lend").1.rows =
        [] ++ [tx] ∧
      tx.quantity = 3 ∧ tx.unit_price = 1000 ∧
      tx.total = tx.quantity * tx.unit_price ∧
      tx.month = firstSeven tx.date) :=
  ⟨⟨by decide, by decide, by decide⟩,
   C9_corrected ⟨[], 1⟩ ⟨2026, 10, 12⟩ "A" "p" 3 1000 "lend"
     (by decide) (by decide) (by decide)⟩

/-- C10: a row whose price text parses but whose trimmed name is empty,
whose trimmed sku is empty, or whose parsed price is non-positive leaves
the import state (catalog and both counters) untouched; on the three-row
example the `-5` row is never counted, so `success + error` is strictly
below the number of data rows. -/
theorem C10_silent_skip :
    (∀ (headers : List String) (pcol scol prcol : String)
        (st : List Product × Nat × Nat) (row : List String) (p : Int),
      parsePrice (cleanPrice (getCell headers row prcol)) = some p →
      (stripStr (getCell headers row pcol) = "" ∨
       stripStr (getCell headers row scol) = "" ∨ p ≤ 0) →
      processRow headers pcol scol prcol st row = st) ∧
    csvCounts (process_csv [] ["Product Name", "SKU", "Supply Price"]
      [["Mug", "M1", "1,000원"], ["", "M2", "500"], ["Cup", "C1", "-5"]]) =
      some (2, 0) ∧
    2 + 0 < ([["Mug", "M1", "1,000원"], ["", "M2", "500"],
      ["Cup", "C1", "-5"]] : List (List String)).length := by
  refine ⟨?_, by decide, by decide⟩
  intro headers pcol scol prcol st row p hp hbad
  simp only [processRow, hp]
  have hcond : ¬ (stripStr (getCell headers row pcol) ≠ "" ∧
      stripStr (getCell headers row scol) ≠ "" ∧ p > 0) := by
    rcases hbad with hb | hb | hb
    · exact fun hc => hc.1 hb
    · exact fun hc => hc.2.1 hb
    · exact fun hc => absurd hc.2.2 (not_lt.mpr hb)
  rw [if_neg hcond]

/-- C10, witness: the `-5`-price row of the example leaves the state
unchanged. -/
theorem C10_witness :
    parsePrice (cleanPrice (getCell ["Product Name", "SKU", "Supply Price"]
      ["Cup", "C1", "-5"] "Supply Price")) = some (-5) ∧
    ((-5 : Int) ≤ 0) ∧
    processRow ["Product Name", "SKU", "Supply Price"] "Product Name" "SKU"
      "Supply Price" ([], 0, 0) ["Cup", "C1", "-5"] = ([], 0, 0) :=
  ⟨by decide, by decide,
   C10_silent_skip.1 ["Product Name", "SKU", "Supply Price"] "Product Name"
     "SKU" "Supply Price" ([], 0, 0) ["Cup", "C1", "-5"] (-5) (by decide)
     (Or.inr (Or.inr (by decide)))⟩
